import Mathlib

/-!
Verification development for the mcp-openai-complete server.

The definitions below are a shallow embedding of the TypeScript sources:
`src/constants.ts` (process-wide defaults), `src/utils.ts`
(`isValidCompletionArgs`), `src/types.ts` (task and response records) and
`src/index.ts` (the `complete` orchestration, `createTimeoutPromise`,
`cancelTask`, `handleCompleteTool`).  JavaScript numbers are modelled as
rationals, JavaScript values handed to the validator as an inductive
`JSValue`, and the event-loop execution of one invocation as a timestamped
list of registry mutations folded into a registry state.
-/

namespace OpenAIComplete

/-! ## Constants (src/constants.ts) -/

def DEFAULT_MODEL : String := "text-davinci-003"

def DEFAULT_MAX_TOKENS : ℚ := 150

def DEFAULT_TEMPERATURE : ℚ := 7/10

def DEFAULT_TOP_P : ℚ := 1

def DEFAULT_FREQUENCY_PENALTY : ℚ := 0

def DEFAULT_PRESENCE_PENALTY : ℚ := 0

def COMPLETION_TIMEOUT_MS : ℕ := 60000

/-! ## JavaScript values, as seen by the argument validator (src/utils.ts) -/

/-- Untyped JavaScript value.  Objects are association lists of string keys;
numbers are modelled as rationals. -/
inductive JSValue where
  | jsUndefined
  | jsNull
  | bool (b : Bool)
  | num (q : ℚ)
  | str (s : String)
  | obj (fields : List (String × JSValue))
  | arr (elems : List JSValue)

/-- The JavaScript `typeof` operator restricted to the values we model. -/
def JSValue.typeof : JSValue → String
  | .jsUndefined => "undefined"
  | .jsNull => "object"
  | .bool _ => "boolean"
  | .num _ => "number"
  | .str _ => "string"
  | .obj _ => "object"
  | .arr _ => "object"

/-- Strict equality against `null`. -/
def JSValue.isNull : JSValue → Bool
  | .jsNull => true
  | _ => false

/-- Strict equality against `undefined`. -/
def JSValue.isUndefined : JSValue → Bool
  | .jsUndefined => true
  | _ => false

/-- Property access `v[key]`: absent keys and non-object receivers yield
`undefined` (string keys are never indices of our modelled arrays). -/
def JSValue.getField : JSValue → String → JSValue
  | .obj fields, key =>
    match fields.lookup key with
    | some v => v
    | none => .jsUndefined
  | _, _ => .jsUndefined

/-- The list of optional numeric parameters checked by the validator,
verbatim from `src/utils.ts`. -/
def optionalNumericParams : List String :=
  ["max_tokens", "temperature", "top_p", "frequency_penalty", "presence_penalty"]

/-- Embedding of `isValidCompletionArgs` (src/utils.ts lines 80-108): reject
non-objects and `null`; require `prompt` to be a string; each optional
parameter, when not `undefined`, must be a number. -/
def isValidCompletionArgs (args : JSValue) : Bool :=
  if args.typeof ≠ "object" ∨ args.isNull then false
  else if (args.getField "prompt").typeof ≠ "string" then false
  else optionalNumericParams.all fun param =>
    (args.getField param).isUndefined || ((args.getField param).typeof == "number")

/-- Modelled from the spec contract for the Parameter Validator (spec 4.1):
the value is a non-null structured object, its prompt field is text, and each
optional generation parameter, if present, is numeric. -/
def validCompletionRequestSpec (v : JSValue) : Bool :=
  (match v with
   | .obj _ => true
   | .arr _ => true
   | _ => false) &&
  ((v.getField "prompt").typeof == "string") &&
  (optionalNumericParams.all fun param =>
    (v.getField param).isUndefined || ((v.getField param).typeof == "number"))

/-! ## Completion arguments and the outbound call (src/index.ts) -/

/-- Validated arguments of the complete tool (src/types.ts `CompletionArgs`);
optional fields are `none` when absent from the request. -/
structure CompletionArgs where
  prompt : String
  max_tokens : Option ℚ := none
  temperature : Option ℚ := none
  top_p : Option ℚ := none
  frequency_penalty : Option ℚ := none
  presence_penalty : Option ℚ := none
deriving DecidableEq

/-- Parameter object handed to `openai.completions.create` by `makeApiCall`
(src/index.ts lines 296-317). -/
structure OutboundRequest where
  model : String
  prompt : String
  max_tokens : ℚ
  temperature : ℚ
  top_p : ℚ
  frequency_penalty : ℚ
  presence_penalty : ℚ
deriving DecidableEq

/-- The parameters of the outbound call issued by `complete`: the
destructuring with defaults at src/index.ts lines 203-210 followed by the
pass-through in `makeApiCall`. -/
def makeApiCall (model : String) (args : CompletionArgs) : OutboundRequest :=
  { model := model
    prompt := args.prompt
    max_tokens := args.max_tokens.getD DEFAULT_MAX_TOKENS
    temperature := args.temperature.getD DEFAULT_TEMPERATURE
    top_p := args.top_p.getD DEFAULT_TOP_P
    frequency_penalty := args.frequency_penalty.getD DEFAULT_FREQUENCY_PENALTY
    presence_penalty := args.presence_penalty.getD DEFAULT_PRESENCE_PENALTY }

/-! ## Upstream responses and task state (src/types.ts) -/

/-- Token usage statistics of the upstream response. -/
structure Usage where
  prompt_tokens : ℚ
  completion_tokens : ℚ
  total_tokens : ℚ
deriving DecidableEq

/-- One choice of the upstream completion response; `text` and
`finish_reason` may be absent. -/
structure Choice where
  text : Option String := none
  finish_reason : Option String := none
deriving DecidableEq

/-- Upstream completion API response, restricted to the fields the server
reads. -/
structure ApiResponse where
  choices : List Choice
  usage : Option Usage := none
deriving DecidableEq

/-- Normalized success payload (src/types.ts `CompletionResponse`). -/
structure CompletionResponse where
  text : String
  model : String
  finish_reason : Option String := none
  usage : Option Usage := none
deriving DecidableEq

/-- Task status enum (src/types.ts `CompletionStatusEnum`). -/
inductive CompletionStatusEnum where
  | Pending
  | Processing
  | Complete
  | Error
deriving DecidableEq

/-- One tracked invocation (src/types.ts `CompletionTask`); the abort
controller is modelled by its `aborted` flag. -/
structure CompletionTask where
  status : CompletionStatusEnum
  result : Option CompletionResponse := none
  error : Option String := none
  created_at : ℕ
  timeout_at : ℕ
  progress : ℕ
  aborted : Bool := false
deriving DecidableEq

/-! ## JavaScript truthiness helpers used by the success path -/

/-- Embedding of `x || d` for an optional string `x` and string default `d`:
absent and empty-string values are falsy. -/
def jsOrElse (x : Option String) (d : String) : String :=
  match x with
  | none => d
  | some s => if s = "" then d else s

/-- Embedding of `x || undefined` for an optional string: an empty string is
falsy and collapses to `undefined`. -/
def jsOrUndefined (x : Option String) : Option String :=
  match x with
  | none => none
  | some s => if s = "" then none else some s

/-! ## The complete orchestration (src/index.ts lines 199-331) -/

/-- The success-path construction of the normalized result (src/index.ts
lines 239-253).  Reading `response.choices[0].text` on an empty choices list
throws a TypeError, modelled as the error branch carrying the runtime
message. -/
def buildCompletionResult (model : String) (response : ApiResponse) :
    Except String CompletionResponse :=
  match response.choices with
  | [] => .error "Cannot read properties of undefined (reading 'text')"
  | choice :: _ =>
    .ok { text := jsOrElse choice.text ""
          model := model
          finish_reason := jsOrUndefined choice.finish_reason
          usage := response.usage }

/-- Task as first registered (src/index.ts lines 216-224). -/
def initialTask (now : ℕ) : CompletionTask :=
  { status := .Pending
    created_at := now
    timeout_at := now + COMPLETION_TIMEOUT_MS
    progress := 0 }

/-- Transition to Processing (src/index.ts line 228). -/
def markProcessing (t : CompletionTask) : CompletionTask :=
  { t with status := .Processing }

/-- Success update (src/index.ts lines 256-262). -/
def markComplete (res : CompletionResponse) (t : CompletionTask) : CompletionTask :=
  { t with status := .Complete, result := some res, progress := 100 }

/-- Catch-block update (src/index.ts lines 268-274): unconditionally set
status Error and store the thrown error message. -/
def markErrorCatch (msg : String) (t : CompletionTask) : CompletionTask :=
  { t with status := .Error, error := some msg }

/-- Embedding of `cancelTask` (src/index.ts lines 333-348) acting on the
registry entry for the given task id: when present and not terminal, abort
the controller, mark Error with the cancellation message and report true;
otherwise report false. -/
def cancelTask (entry : Option CompletionTask) : Option CompletionTask × Bool :=
  match entry with
  | some t =>
    if t.status ≠ CompletionStatusEnum.Complete ∧ t.status ≠ CompletionStatusEnum.Error then
      (some { t with aborted := true, status := .Error,
                     error := some "Task cancelled by user" }, true)
    else (some t, false)
  | none => (none, false)

/-! ## One invocation as a timestamped event trace

The event loop is single-threaded: each callback runs to completion, so one
invocation is a chronological list of registry mutations.  The environment
of an invocation is a `Scenario`: when the outbound call would settle and
how, and when (if ever) the host invokes `cancelTask`.  The timer armed by
`createTimeoutPromise` always fires at `t0 + COMPLETION_TIMEOUT_MS` - the
code never clears it - and the registry entry is removed by the `finally`
block `COMPLETION_TIMEOUT_MS` after the race settles. -/

/-- How the outbound call settles, absent external interference. -/
inductive ApiSettlement where
  | success (resp : ApiResponse)
  | failure (msg : String)
deriving DecidableEq

/-- Environment of one invocation: start time, settlement time and kind of
the outbound call, and an optional external `cancelTask` time. -/
structure Scenario where
  t0 : ℕ
  ta : ℕ
  settle : ApiSettlement
  cancel_at : Option ℕ := none
deriving DecidableEq

/-- The outbound call wins the race iff it settles strictly before the
timer fires. -/
def apiWinsRace (s : Scenario) : Prop :=
  s.ta < s.t0 + COMPLETION_TIMEOUT_MS

instance (s : Scenario) : Decidable (apiWinsRace s) := by
  unfold apiWinsRace; infer_instance

/-- Time at which the race of `Promise.race` settles. -/
def settleTime (s : Scenario) : ℕ :=
  min s.ta (s.t0 + COMPLETION_TIMEOUT_MS)

/-- Time at which the `finally` block deletes the registry entry. -/
def removalTime (s : Scenario) : ℕ :=
  settleTime s + COMPLETION_TIMEOUT_MS

/-- An external `cancelTask` call mutates the task iff it happens once the
task exists and strictly before the race settles (afterwards the task is
terminal, so `cancelTask` reports false and aborts nothing). -/
def effectiveCancel (s : Scenario) : Prop :=
  match s.cancel_at with
  | some tc => s.t0 ≤ tc ∧ tc < settleTime s
  | none => False

instance (s : Scenario) : Decidable (effectiveCancel s) := by
  unfold effectiveCancel
  match s.cancel_at with
  | some _ => exact instDecidableAnd
  | none => exact instDecidableFalse

/-- Primitive registry mutations of one invocation. -/
inductive RegEvent where
  | create (now : ℕ)
  | toProcessing
  | raceSuccess (resp : ApiResponse)
  | raceCatch (msg : String)
  | timerFire
  | cancel
  | remove
deriving DecidableEq

/-- Effect of one event on the registry entry, straight from the code:
`create` registers the Pending task; `raceSuccess` is the success
continuation (which itself falls into the catch block when the choices list
is empty); `raceCatch` is the catch block storing a thrown message;
`timerFire` is the `createTimeoutPromise` callback, which mutates the entry
whenever it is still present, with no terminal-state guard; `remove` is the
scheduled cleanup. -/
def applyEvent (model : String) : RegEvent → Option CompletionTask → Option CompletionTask
  | .create now, _ => some (initialTask now)
  | .toProcessing, r => r.map markProcessing
  | .raceSuccess resp, r =>
    match buildCompletionResult model resp with
    | .ok res => r.map (markComplete res)
    | .error msg => r.map (markErrorCatch msg)
  | .raceCatch msg, r => r.map (markErrorCatch msg)
  | .timerFire, r =>
    r.map fun t => { t with status := .Error, error := some "Completion timed out" }
  | .cancel, r => (cancelTask r).1
  | .remove, _ => none

/-- Message carried by `CompletionTimeoutError` (src/types.ts line 78),
which the catch block stores when the timer wins the race. -/
def timeoutErrorMessage : String := "OpenAI API request timed out"

/-- The race settlement events.  When the outbound call wins, its
continuation runs at `ta` and the dangling timer still fires at
`t0 + COMPLETION_TIMEOUT_MS`; when the timer wins, its callback and the
catch continuation both run when it fires, and the losing call settlement
touches nothing. -/
def raceEvents (s : Scenario) : List (ℕ × RegEvent) :=
  if apiWinsRace s then
    (match s.settle with
     | .success resp => [(s.ta, .raceSuccess resp)]
     | .failure msg => [(s.ta, .raceCatch msg)]) ++
    [(s.t0 + COMPLETION_TIMEOUT_MS, .timerFire)]
  else
    [(s.t0 + COMPLETION_TIMEOUT_MS, .timerFire),
     (s.t0 + COMPLETION_TIMEOUT_MS, .raceCatch timeoutErrorMessage)]

/-- The external cancellation event, when it mutates the task. -/
def cancelEvents (s : Scenario) : List (ℕ × RegEvent) :=
  match s.cancel_at with
  | some tc => if s.t0 ≤ tc ∧ tc < settleTime s then [(tc, .cancel)] else []
  | none => []

/-- Chronological list of registry mutations of one invocation. -/
def events (s : Scenario) : List (ℕ × RegEvent) :=
  [(s.t0, .create s.t0), (s.t0, .toProcessing)] ++
  cancelEvents s ++ raceEvents s ++ [(removalTime s, .remove)]

/-- Registry entry for the task as observable at time `t` (after every
event with timestamp at most `t`). -/
def stateAt (model : String) (s : Scenario) (t : ℕ) : Option CompletionTask :=
  ((events s).filter fun e => e.1 ≤ t).foldl (fun r e => applyEvent model e.2 r) none

/-- Time at which the task first reaches a terminal status: an effective
external cancellation, or else the settlement of the race. -/
def terminalTime (s : Scenario) : ℕ :=
  match s.cancel_at with
  | some tc => if s.t0 ≤ tc ∧ tc < settleTime s then tc else settleTime s
  | none => settleTime s

/-! ## The value returned or thrown by `complete`, and the tool response -/

/-- Failure thrown out of `complete` (src/index.ts lines 276-287). -/
inductive CompleteError where
  | timeout
  | cancelled
  | mcpInvalidRequest (msg : String)
deriving DecidableEq

/-- Settled outcome of `complete`: the catch block rethrows timeout and
cancellation errors, converts any other failure of an aborted task into a
cancellation error, and wraps remaining failures as a protocol error
carrying the upstream message. -/
def completeOutcome (model : String) (s : Scenario) :
    Except CompleteError CompletionResponse :=
  if apiWinsRace s then
    match s.settle with
    | .success resp =>
      match buildCompletionResult model resp with
      | .ok res => .ok res
      | .error msg =>
        if effectiveCancel s then .error .cancelled
        else .error (.mcpInvalidRequest ("OpenAI API error: " ++ msg))
    | .failure msg =>
      if effectiveCancel s then .error .cancelled
      else .error (.mcpInvalidRequest ("OpenAI API error: " ++ msg))
  else .error .timeout

/-- Caller-visible response of the complete tool. -/
inductive ToolOutcome where
  | content (text : String)
  | mcpError (code : String) (msg : String)
deriving DecidableEq

/-- Friendly text returned for a timed-out completion (src/index.ts
line 179). -/
def friendlyTimeoutText : String :=
  "The completion request timed out. Please try again with a shorter prompt or fewer tokens."

/-- How `handleCompleteTool` renders the settled invocation (src/index.ts
lines 156-196). -/
def handleToolOutcome (model : String) (s : Scenario) : ToolOutcome :=
  match completeOutcome model s with
  | .ok res => .content res.text
  | .error .timeout => .content friendlyTimeoutText
  | .error .cancelled => .content "The request was cancelled."
  | .error (.mcpInvalidRequest msg) => .mcpError "InvalidRequest" msg

/-- The validation front door of `handleCompleteTool` (src/index.ts
lines 149-154): invalid arguments raise an InvalidParams protocol error
before any task exists. -/
def handleCompleteTool (model : String) (args : JSValue) (s : Scenario) : ToolOutcome :=
  if isValidCompletionArgs args then handleToolOutcome model s
  else .mcpError "InvalidParams" "Invalid completion arguments"

/-! ## Concrete scenarios used as witnesses and counterexamples -/

/-- An upstream response with one choice carrying text and a finish
reason. -/
def successResponse : ApiResponse :=
  { choices := [{ text := some "hello", finish_reason := some "stop" }] }

/-- The outbound call succeeds at t=1000, well before the 60000 ms
timeout. -/
def successScenario : Scenario :=
  { t0 := 0, ta := 1000, settle := .success successResponse }

/-- The outbound call would only settle at t=70000, after the timer has
fired at t=60000. -/
def timeoutScenario : Scenario :=
  { t0 := 0, ta := 70000, settle := .failure "socket hang up" }

/-- The outbound call succeeds at t=500 with an empty choices list. -/
def emptyChoicesScenario : Scenario :=
  { t0 := 0, ta := 500, settle := .success { choices := [] } }

/-- A task in flight, as `cancelTask` may find it. -/
def processingTask : CompletionTask :=
  { status := .Processing, created_at := 0, timeout_at := 60000, progress := 0 }

end OpenAIComplete

namespace OpenAIComplete

/-! ## Helper lemmas -/

/-- Boolean equality on strings agrees with decidable propositional
equality. -/
lemma string_beq_eq_decide (a b : String) : (a == b) = decide (a = b) := by
  by_cases h : a = b <;> simp [h]

/-- With the empty string as default, the JavaScript truthy-or coincides
with `Option.getD`. -/
lemma jsOrElse_empty_default (x : Option String) : jsOrElse x "" = x.getD "" := by
  cases x with
  | none => rfl
  | some t =>
    by_cases h : t = "" <;> simp [jsOrElse, h]

/-- Every event except `remove` keeps the registry entry present. -/
lemma applyEvent_isSome (model : String) (e : RegEvent) (r : Option CompletionTask)
    (he : e ≠ RegEvent.remove) (hr : r.isSome = true) :
    (applyEvent model e r).isSome = true := by
  obtain ⟨t, rfl⟩ := Option.isSome_iff_exists.mp hr
  cases e with
  | create now => simp [applyEvent]
  | toProcessing => simp [applyEvent]
  | raceSuccess resp =>
    rcases h : buildCompletionResult model resp with res | msg <;>
      simp [applyEvent, h]
  | raceCatch msg => simp [applyEvent]
  | timerFire => simp [applyEvent]
  | cancel =>
    simp only [applyEvent, cancelTask]
    split <;> simp
  | remove => exact absurd rfl he

/-- Folding a remove-free event list over a present entry keeps it
present. -/
lemma foldl_events_isSome (model : String) (l : List (ℕ × RegEvent))
    (hl : ∀ e ∈ l, e.2 ≠ RegEvent.remove) (r : Option CompletionTask)
    (hr : r.isSome = true) :
    (l.foldl (fun r e => applyEvent model e.2 r) r).isSome = true := by
  induction l generalizing r with
  | nil => simpa using hr
  | cons e l ih =>
    simp only [List.foldl_cons]
    exact ih (fun x hx => hl x (List.mem_cons_of_mem _ hx)) _
      (applyEvent_isSome model e.2 r (hl e (List.mem_cons_self _ _)) hr)

/-- Shape of the optional cancellation event. -/
lemma mem_cancelEvents (s : Scenario) (e : ℕ × RegEvent) (he : e ∈ cancelEvents s) :
    e.2 = RegEvent.cancel ∧ s.t0 ≤ e.1 ∧ e.1 < settleTime s := by
  unfold cancelEvents at he
  split at he
  case h_1 tc heq =>
    split at he
    case isTrue h =>
      simp only [List.mem_singleton] at he
      subst he
      exact ⟨rfl, h.1, h.2⟩
    case isFalse h => simp at he
  case h_2 => simp at he

/-- Shape and time bounds of the race settlement events. -/
lemma mem_raceEvents (s : Scenario) (h0 : s.t0 ≤ s.ta) (e : ℕ × RegEvent)
    (he : e ∈ raceEvents s) :
    e.2 ≠ RegEvent.remove ∧ settleTime s ≤ e.1 ∧ e.1 ≤ removalTime s := by
  have hCT : COMPLETION_TIMEOUT_MS = 60000 := rfl
  unfold raceEvents at he
  by_cases hw : apiWinsRace s
  · rw [if_pos hw] at he
    have hw2 : s.ta < s.t0 + COMPLETION_TIMEOUT_MS := hw
    cases hset : s.settle with
    | success resp =>
      rw [hset] at he
      simp at he
      rcases he with rfl | rfl <;>
        exact ⟨by simp, by simp only [settleTime, removalTime]; omega,
               by simp only [removalTime, settleTime]; omega⟩
    | failure msg =>
      rw [hset] at he
      simp at he
      rcases he with rfl | rfl <;>
        exact ⟨by simp, by simp only [settleTime, removalTime]; omega,
               by simp only [removalTime, settleTime]; omega⟩
  · rw [if_neg hw] at he
    have hw2 : ¬ (s.ta < s.t0 + COMPLETION_TIMEOUT_MS) := hw
    simp at he
    rcases he with rfl | rfl <;>
      exact ⟨by simp, by simp only [settleTime, removalTime]; omega,
             by simp only [removalTime, settleTime]; omega⟩

/-- An ineffective cancellation contributes no event. -/
lemma cancelEvents_of_not_effective (s : Scenario) (h : ¬ effectiveCancel s) :
    cancelEvents s = [] := by
  unfold effectiveCancel at h
  unfold cancelEvents
  split
  case h_1 tc heq =>
    rw [heq] at h
    exact if_neg h
  case h_2 => rfl

end OpenAIComplete

namespace OpenAIComplete

/-! ## Claim theorems -/

/-- C5: the validator returns true exactly on non-null objects whose prompt
field is a string and whose optional generation parameters, when present,
are numbers; extra fields never cause rejection, and the validator is a
total boolean function, so it cannot throw. -/
theorem isValidCompletionArgs_iff_spec (v : JSValue) :
    isValidCompletionArgs v = validCompletionRequestSpec v := by
  cases v <;>
    simp [isValidCompletionArgs, validCompletionRequestSpec, JSValue.typeof,
      JSValue.isNull, JSValue.getField, string_beq_eq_decide]

/-- C6: the outbound call carries the configured model and the caller's
prompt, and substitutes the process-wide default for every absent optional
generation parameter (max_tokens 150, temperature 0.7, top_p 1.0,
frequency_penalty 0.0, presence_penalty 0.0). -/
theorem complete_substitutes_defaults (model : String) (args : CompletionArgs) :
    (makeApiCall model args).model = model ∧
    (makeApiCall model args).prompt = args.prompt ∧
    (args.max_tokens = none → (makeApiCall model args).max_tokens = 150) ∧
    (args.temperature = none → (makeApiCall model args).temperature = 7/10) ∧
    (args.top_p = none → (makeApiCall model args).top_p = 1) ∧
    (args.frequency_penalty = none → (makeApiCall model args).frequency_penalty = 0) ∧
    (args.presence_penalty = none → (makeApiCall model args).presence_penalty = 0) := by
  refine ⟨rfl, rfl, ?_, ?_, ?_, ?_, ?_⟩ <;>
    (intro h;
     simp [makeApiCall, h, DEFAULT_MAX_TOKENS, DEFAULT_TEMPERATURE, DEFAULT_TOP_P,
       DEFAULT_FREQUENCY_PENALTY, DEFAULT_PRESENCE_PENALTY])

/-- Witness for C6: the request with prompt "Once upon a time" and every
optional field omitted is sent with all five defaults and the configured
model. -/
theorem complete_substitutes_defaults_witness :
    (makeApiCall DEFAULT_MODEL { prompt := "Once upon a time" }).max_tokens = 150 ∧
    (makeApiCall DEFAULT_MODEL { prompt := "Once upon a time" }).temperature = 7/10 ∧
    (makeApiCall DEFAULT_MODEL { prompt := "Once upon a time" }).top_p = 1 ∧
    (makeApiCall DEFAULT_MODEL { prompt := "Once upon a time" }).frequency_penalty = 0 ∧
    (makeApiCall DEFAULT_MODEL { prompt := "Once upon a time" }).presence_penalty = 0 ∧
    (makeApiCall DEFAULT_MODEL { prompt := "Once upon a time" }).model = DEFAULT_MODEL ∧
    (makeApiCall DEFAULT_MODEL { prompt := "Once upon a time" }).prompt = "Once upon a time" := by
  have h := complete_substitutes_defaults DEFAULT_MODEL { prompt := "Once upon a time" }
  exact ⟨h.2.2.1 rfl, h.2.2.2.1 rfl, h.2.2.2.2.1 rfl, h.2.2.2.2.2.1 rfl,
    h.2.2.2.2.2.2 rfl, h.1, h.2.1⟩

/-- C2: when the outbound call resolves successfully strictly before the
timer and the response has a first choice, `complete` marks the task
Complete with progress 100, stores the result, and returns a result whose
text is the first-choice text (empty string when absent), whose model is the
configured one, and which carries the upstream finish_reason (when supplied
non-empty) and usage counters. -/
theorem success_before_timeout_completes_task
    (model : String) (s : Scenario) (resp : ApiResponse)
    (choice : Choice) (rest : List Choice)
    (hs : s.settle = ApiSettlement.success resp)
    (hch : resp.choices = choice :: rest)
    (h0 : s.t0 ≤ s.ta)
    (hw : s.ta < s.t0 + COMPLETION_TIMEOUT_MS)
    (hnc : s.cancel_at = none) :
    ∃ res : CompletionResponse,
      completeOutcome model s = Except.ok res ∧
      res.text = choice.text.getD "" ∧
      res.model = model ∧
      res.usage = resp.usage ∧
      (∀ fr, choice.finish_reason = some fr → fr ≠ "" → res.finish_reason = some fr) ∧
      stateAt model s s.ta =
        some { status := .Complete,
               result := some res,
               error := none,
               created_at := s.t0,
               timeout_at := s.t0 + COMPLETION_TIMEOUT_MS,
               progress := 100,
               aborted := false } := by
  have hCT : COMPLETION_TIMEOUT_MS = 60000 := rfl
  refine ⟨{ text := jsOrElse choice.text "", model := model,
            finish_reason := jsOrUndefined choice.finish_reason, usage := resp.usage },
          ?_, jsOrElse_empty_default choice.text, rfl, rfl, ?_, ?_⟩
  · unfold completeOutcome
    rw [if_pos (show apiWinsRace s from hw), hs]
    simp [buildCompletionResult, hch]
  · intro fr hfr hne
    simp [jsOrUndefined, hfr, hne]
  · have hnt : ¬ (s.t0 + COMPLETION_TIMEOUT_MS ≤ s.ta) := by omega
    have hst : settleTime s = s.ta := by unfold settleTime; omega
    have hnr : ¬ (removalTime s ≤ s.ta) := by unfold removalTime; omega
    unfold stateAt events cancelEvents raceEvents
    rw [hnc, if_pos (show apiWinsRace s from hw), hs]
    simp only [List.nil_append, List.cons_append, List.append_nil, List.singleton_append,
      List.filter_cons, List.filter_nil, decide_eq_true_eq, h0, le_refl, hnt, hnr,
      if_true, if_false, ite_true, ite_false]
    simp [List.foldl, applyEvent, buildCompletionResult, hch, initialTask,
      markProcessing, markComplete]

/-- Witness for C2 at the concrete success scenario. -/
theorem success_before_timeout_completes_task_witness :
    ∃ res : CompletionResponse,
      completeOutcome DEFAULT_MODEL successScenario = Except.ok res ∧
      res.text = (Choice.mk (some "hello") (some "stop")).text.getD "" ∧
      res.model = DEFAULT_MODEL ∧
      res.usage = successResponse.usage ∧
      (∀ fr, (Choice.mk (some "hello") (some "stop")).finish_reason = some fr → fr ≠ "" →
        res.finish_reason = some fr) ∧
      stateAt DEFAULT_MODEL successScenario successScenario.ta =
        some { status := .Complete,
               result := some res,
               error := none,
               created_at := successScenario.t0,
               timeout_at := successScenario.t0 + COMPLETION_TIMEOUT_MS,
               progress := 100,
               aborted := false } :=
  success_before_timeout_completes_task DEFAULT_MODEL successScenario successResponse
    (Choice.mk (some "hello") (some "stop")) [] rfl rfl (by decide) (by decide) rfl

/-- C4: `cancelTask` reports true exactly when the registry holds the task
with status Pending or Processing; it then signals the cancellation handle
and marks the task Error with the cancellation message, and a repeated
cancellation of the same task reports false (as do absent and terminal
tasks, by the first part). -/
theorem cancelTask_spec (entry : Option CompletionTask) :
    ((cancelTask entry).2 = true ↔
      ∃ t, entry = some t ∧
        (t.status = CompletionStatusEnum.Pending ∨
          t.status = CompletionStatusEnum.Processing)) ∧
    (∀ t, entry = some t →
      (t.status = CompletionStatusEnum.Pending ∨
        t.status = CompletionStatusEnum.Processing) →
      (cancelTask entry).1 =
        some { t with aborted := true, status := CompletionStatusEnum.Error,
                      error := some "Task cancelled by user" }) ∧
    ((cancelTask entry).2 = true →
      (cancelTask (cancelTask entry).1).2 = false) := by
  cases entry with
  | none => simp [cancelTask]
  | some t =>
    rcases ht : t.status <;> simp [cancelTask, ht]

/-- Witness for C4 at a concrete Processing task. -/
theorem cancelTask_spec_witness :
    (cancelTask (some processingTask)).2 = true ∧
    (cancelTask (some processingTask)).1 =
      some { processingTask with aborted := true, status := CompletionStatusEnum.Error,
                                 error := some "Task cancelled by user" } ∧
    (cancelTask (cancelTask (some processingTask)).1).2 = false := by
  have h := cancelTask_spec (some processingTask)
  exact ⟨h.1.mpr ⟨processingTask, rfl, Or.inr rfl⟩,
    h.2.1 processingTask rfl (Or.inr rfl),
    h.2.2 (h.1.mpr ⟨processingTask, rfl, Or.inr rfl⟩)⟩

end OpenAIComplete

namespace OpenAIComplete

/-- C3 counterexample: in the timeout scenario the task ends in status Error
and the caller gets the friendly text, but the stored error message is NOT
"Completion timed out" - the catch block overwrites it with the timeout
error's own message "OpenAI API request timed out", which is what any later
query observes until removal. -/
theorem timeout_stored_message_counterexample :
    (stateAt DEFAULT_MODEL timeoutScenario 60000).map CompletionTask.status =
      some CompletionStatusEnum.Error ∧
    (stateAt DEFAULT_MODEL timeoutScenario 60000).map CompletionTask.error ≠
      some (some "Completion timed out") ∧
    (stateAt DEFAULT_MODEL timeoutScenario 119999).map CompletionTask.error =
      some (some "OpenAI API request timed out") ∧
    handleToolOutcome DEFAULT_MODEL timeoutScenario =
      ToolOutcome.content friendlyTimeoutText := by
  refine ⟨by decide, by decide, by decide, by decide⟩

/-- C3 amended: when the timer fires strictly before the outbound call
resolves, the task ends in status Error - the timer transiently stores
"Completion timed out", but the catch handler immediately overwrites it in
the same event-loop turn, so the stored message from settlement until
removal is "OpenAI API request timed out" - and the caller receives the
friendly timeout text, never a protocol-level error. -/
theorem timeout_final_state_and_friendly_text
    (model : String) (s : Scenario) (t : ℕ)
    (hl : s.t0 + COMPLETION_TIMEOUT_MS < s.ta)
    (hnc : s.cancel_at = none)
    (ht1 : s.t0 + COMPLETION_TIMEOUT_MS ≤ t)
    (ht2 : t < removalTime s) :
    stateAt model s t =
      some { status := .Error,
             result := none,
             error := some timeoutErrorMessage,
             created_at := s.t0,
             timeout_at := s.t0 + COMPLETION_TIMEOUT_MS,
             progress := 0,
             aborted := false } ∧
    completeOutcome model s = Except.error CompleteError.timeout ∧
    handleToolOutcome model s = ToolOutcome.content friendlyTimeoutText := by
  have hCT : COMPLETION_TIMEOUT_MS = 60000 := rfl
  have hnw : ¬ apiWinsRace s := by unfold apiWinsRace; omega
  have hst : settleTime s = s.t0 + COMPLETION_TIMEOUT_MS := by unfold settleTime; omega
  have hrem : removalTime s = s.t0 + COMPLETION_TIMEOUT_MS + COMPLETION_TIMEOUT_MS := by
    unfold removalTime; omega
  refine ⟨?_, ?_, ?_⟩
  · have h0t : s.t0 ≤ t := by omega
    have hnr : ¬ (removalTime s ≤ t) := by omega
    unfold stateAt events cancelEvents raceEvents
    rw [hnc, if_neg hnw]
    simp only [List.nil_append, List.cons_append, List.append_nil, List.singleton_append,
      List.filter_cons, List.filter_nil, decide_eq_true_eq, h0t, ht1, hnr,
      if_true, if_false, ite_true, ite_false]
    simp [List.foldl, applyEvent, initialTask, markProcessing, markErrorCatch]
  · unfold completeOutcome
    rw [if_neg hnw]
  · unfold handleToolOutcome completeOutcome
    rw [if_neg hnw]

/-- Witness for the amended C3 at the concrete timeout scenario, observed at
the moment the timer fires. -/
theorem timeout_final_state_and_friendly_text_witness :
    stateAt DEFAULT_MODEL timeoutScenario 60000 =
      some { status := .Error,
             result := none,
             error := some timeoutErrorMessage,
             created_at := 0,
             timeout_at := 0 + COMPLETION_TIMEOUT_MS,
             progress := 0,
             aborted := false } ∧
    completeOutcome DEFAULT_MODEL timeoutScenario = Except.error CompleteError.timeout ∧
    handleToolOutcome DEFAULT_MODEL timeoutScenario =
      ToolOutcome.content friendlyTimeoutText :=
  timeout_final_state_and_friendly_text DEFAULT_MODEL timeoutScenario 60000
    (by decide) rfl (by decide) (by decide)

/-- C10: when the outbound call resolves successfully before the timeout but
with an empty choices list, `complete` does not return a success: the
first-choice access throws, the task is marked Error, and the caller gets a
protocol-level upstream-API error carrying the TypeError message. -/
theorem empty_choices_yields_upstream_error
    (model : String) (s : Scenario) (resp : ApiResponse)
    (hs : s.settle = ApiSettlement.success resp)
    (hch : resp.choices = [])
    (h0 : s.t0 ≤ s.ta)
    (hw : s.ta < s.t0 + COMPLETION_TIMEOUT_MS)
    (hnc : s.cancel_at = none) :
    completeOutcome model s =
      Except.error (CompleteError.mcpInvalidRequest
        "OpenAI API error: Cannot read properties of undefined (reading 'text')") ∧
    (stateAt model s s.ta).map CompletionTask.status = some CompletionStatusEnum.Error ∧
    (stateAt model s s.ta).map CompletionTask.error =
      some (some "Cannot read properties of undefined (reading 'text')") ∧
    handleToolOutcome model s =
      ToolOutcome.mcpError "InvalidRequest"
        "OpenAI API error: Cannot read properties of undefined (reading 'text')" := by
  have hCT : COMPLETION_TIMEOUT_MS = 60000 := rfl
  have hnec : ¬ effectiveCancel s := by
    unfold effectiveCancel
    rw [hnc]
    exact not_false
  have houtcome : completeOutcome model s =
      Except.error (CompleteError.mcpInvalidRequest
        "OpenAI API error: Cannot read properties of undefined (reading 'text')") := by
    unfold completeOutcome
    rw [if_pos (show apiWinsRace s from hw), hs]
    simp [buildCompletionResult, hch, hnec]
  have hstate : stateAt model s s.ta =
      some { status := .Error,
             result := none,
             error := some "Cannot read properties of undefined (reading 'text')",
             created_at := s.t0,
             timeout_at := s.t0 + COMPLETION_TIMEOUT_MS,
             progress := 0,
             aborted := false } := by
    have hnt : ¬ (s.t0 + COMPLETION_TIMEOUT_MS ≤ s.ta) := by omega
    have hst : settleTime s = s.ta := by unfold settleTime; omega
    have hnr : ¬ (removalTime s ≤ s.ta) := by unfold removalTime; omega
    unfold stateAt events cancelEvents raceEvents
    rw [hnc, if_pos (show apiWinsRace s from hw), hs]
    simp only [List.nil_append, List.cons_append, List.append_nil, List.singleton_append,
      List.filter_cons, List.filter_nil, decide_eq_true_eq, h0, le_refl, hnt, hnr,
      if_true, if_false, ite_true, ite_false]
    simp [List.foldl, applyEvent, buildCompletionResult, hch, initialTask,
      markProcessing, markErrorCatch]
  refine ⟨houtcome, ?_, ?_, ?_⟩
  · rw [hstate]
    rfl
  · rw [hstate]
    rfl
  · unfold handleToolOutcome
    rw [houtcome]

/-- Witness for C10 at the concrete empty-choices scenario. -/
theorem empty_choices_yields_upstream_error_witness :
    completeOutcome DEFAULT_MODEL emptyChoicesScenario =
      Except.error (CompleteError.mcpInvalidRequest
        "OpenAI API error: Cannot read properties of undefined (reading 'text')") ∧
    (stateAt DEFAULT_MODEL emptyChoicesScenario emptyChoicesScenario.ta).map
        CompletionTask.status = some CompletionStatusEnum.Error ∧
    (stateAt DEFAULT_MODEL emptyChoicesScenario emptyChoicesScenario.ta).map
        CompletionTask.error =
      some (some "Cannot read properties of undefined (reading 'text')") ∧
    handleToolOutcome DEFAULT_MODEL emptyChoicesScenario =
      ToolOutcome.mcpError "InvalidRequest"
        "OpenAI API error: Cannot read properties of undefined (reading 'text')" :=
  empty_choices_yields_upstream_error DEFAULT_MODEL emptyChoicesScenario
    { choices := [] } rfl rfl (by decide) (by decide) rfl

end OpenAIComplete

namespace OpenAIComplete

/-- C9: every task entry stays in the registry and is queryable at every
instant from creation until removal; removal happens only once the fixed
grace period (COMPLETION_TIMEOUT_MS) has elapsed since the task first
reached a terminal status - whether by completion, failure, timeout or
cancellation - and at the moment the task finishes its status is indeed
terminal.  The grace period is measured from the settlement of the race, so
for a cancelled task removal comes no earlier than (and possibly later
than) terminal time plus the grace period, which the spec explicitly
tolerates as overrun. -/
theorem registry_grace_period (model : String) (s : Scenario) (h0 : s.t0 ≤ s.ta) :
    terminalTime s + COMPLETION_TIMEOUT_MS ≤ removalTime s ∧
    ((stateAt model s (terminalTime s)).map CompletionTask.status =
        some CompletionStatusEnum.Complete ∨
      (stateAt model s (terminalTime s)).map CompletionTask.status =
        some CompletionStatusEnum.Error) ∧
    (∀ t, s.t0 ≤ t → t < removalTime s → (stateAt model s t).isSome = true) ∧
    (∀ t, removalTime s ≤ t → stateAt model s t = none) := by
  have hCT : COMPLETION_TIMEOUT_MS = 60000 := rfl
  have hterm_le : terminalTime s ≤ settleTime s := by
    unfold terminalTime
    split
    case h_1 tc heq => split <;> omega
    case h_2 => exact le_rfl
  have ht0_settle : s.t0 ≤ settleTime s := by
    simp only [settleTime]; omega
  refine ⟨by simp only [removalTime]; omega, ?_, ?_, ?_⟩
  · -- the task is terminal at terminalTime
    by_cases hec : effectiveCancel s
    · obtain ⟨tc, heq⟩ : ∃ tc, s.cancel_at = some tc := by
        unfold effectiveCancel at hec
        cases h : s.cancel_at with
        | some tc => exact ⟨tc, rfl⟩
        | none => rw [h] at hec; exact absurd hec (by simp)
      have hc : s.t0 ≤ tc ∧ tc < settleTime s := by
        unfold effectiveCancel at hec; rw [heq] at hec; exact hec
      have hterm : terminalTime s = tc := by
        unfold terminalTime; rw [heq]; exact if_pos hc
      have hcev : cancelEvents s = [(tc, RegEvent.cancel)] := by
        unfold cancelEvents; rw [heq]; exact if_pos hc
      have hrace_nil : (raceEvents s).filter (fun e => decide (e.1 ≤ tc)) = [] := by
        refine List.filter_eq_nil_iff.mpr ?_
        intro e hemem
        have hlow := (mem_raceEvents s h0 e hemem).2.1
        simp only [decide_eq_true_eq]
        omega
      have hnr : ¬ (removalTime s ≤ tc) := by
        simp only [removalTime]; omega
      rw [hterm]
      unfold stateAt events
      rw [hcev]
      simp only [List.filter_append, hrace_nil]
      simp only [List.nil_append, List.cons_append, List.append_nil, List.singleton_append,
        List.filter_cons, List.filter_nil, decide_eq_true_eq, hc.1, le_refl, hnr,
        if_true, if_false, ite_true, ite_false]
      exact Or.inr (by
        simp [List.foldl, applyEvent, initialTask, markProcessing, cancelTask])
    · have hterm : terminalTime s = settleTime s := by
        unfold terminalTime
        cases h : s.cancel_at with
        | some tc =>
          unfold effectiveCancel at hec
          rw [h] at hec
          exact if_neg hec
        | none => rfl
      have hcev := cancelEvents_of_not_effective s hec
      rw [hterm]
      by_cases hw : apiWinsRace s
      · have hw2 : s.ta < s.t0 + COMPLETION_TIMEOUT_MS := hw
        have hst : settleTime s = s.ta := by simp only [settleTime]; omega
        have hnt : ¬ (s.t0 + COMPLETION_TIMEOUT_MS ≤ s.ta) := by omega
        have hnr : ¬ (removalTime s ≤ s.ta) := by
          simp only [removalTime, settleTime]; omega
        rw [hst]
        unfold stateAt events raceEvents
        rw [hcev, if_pos hw]
        cases hset : s.settle with
        | success resp =>
          simp only [List.filter_append, List.nil_append, List.cons_append, List.append_nil,
            List.singleton_append, List.filter_cons, List.filter_nil, decide_eq_true_eq,
            h0, le_refl, hnt, hnr, if_true, if_false, ite_true, ite_false]
          rcases hres : buildCompletionResult model resp with msg | res
          · exact Or.inr (by
              simp [List.foldl, applyEvent, hres, initialTask, markProcessing, markErrorCatch])
          · exact Or.inl (by
              simp [List.foldl, applyEvent, hres, initialTask, markProcessing, markComplete])
        | failure msg =>
          simp only [List.filter_append, List.nil_append, List.cons_append, List.append_nil,
            List.singleton_append, List.filter_cons, List.filter_nil, decide_eq_true_eq,
            h0, le_refl, hnt, hnr, if_true, if_false, ite_true, ite_false]
          exact Or.inr (by
            simp [List.foldl, applyEvent, initialTask, markProcessing, markErrorCatch])
      · have hw2 : ¬ (s.ta < s.t0 + COMPLETION_TIMEOUT_MS) := hw
        have hst : settleTime s = s.t0 + COMPLETION_TIMEOUT_MS := by
          simp only [settleTime]; omega
        have hnr : ¬ (removalTime s ≤ s.t0 + COMPLETION_TIMEOUT_MS) := by
          simp only [removalTime, settleTime]; omega
        have ht0le : s.t0 ≤ s.t0 + COMPLETION_TIMEOUT_MS := by omega
        rw [hst]
        unfold stateAt events raceEvents
        rw [hcev, if_neg hw]
        simp only [List.filter_append, List.nil_append, List.cons_append, List.append_nil,
          List.singleton_append, List.filter_cons, List.filter_nil, decide_eq_true_eq,
          ht0le, le_refl, hnr, if_true, if_false, ite_true, ite_false]
        exact Or.inr (by
          simp [List.foldl, applyEvent, initialTask, markProcessing, markErrorCatch])
  · -- presence before removal
    intro t ht0 htr
    unfold stateAt
    have hev : events s =
        (s.t0, RegEvent.create s.t0) ::
          ((s.t0, RegEvent.toProcessing) ::
            (cancelEvents s ++ raceEvents s ++ [(removalTime s, RegEvent.remove)])) := by
      simp [events]
    rw [hev]
    rw [List.filter_cons_of_pos (by simpa using ht0)]
    simp only [List.foldl_cons]
    refine foldl_events_isSome model _ ?_ _ (by simp [applyEvent])
    intro e hef
    have hmem := (List.mem_filter.mp hef).1
    have hpe := (List.mem_filter.mp hef).2
    simp only [List.mem_cons, List.mem_append, List.mem_singleton,
      List.mem_nil_iff, or_false] at hmem
    rcases hmem with rfl | (hmem | hmem) | rfl
    · simp
    · rw [(mem_cancelEvents s e hmem).1]; simp
    · exact (mem_raceEvents s h0 e hmem).1
    · simp only [decide_eq_true_eq] at hpe
      omega
  · -- absence from removal on
    intro t htr
    unfold stateAt
    have hall : (events s).filter (fun e => decide (e.1 ≤ t)) = events s := by
      refine List.filter_eq_self.mpr ?_
      intro e hemem
      simp only [decide_eq_true_eq]
      unfold events at hemem
      simp only [List.mem_cons, List.mem_append, List.mem_singleton,
        List.cons_append, List.nil_append, List.mem_nil_iff, or_false] at hemem
      rcases hemem with rfl | rfl | (hmem | hmem) | rfl
      · simp only [removalTime] at htr ⊢; omega
      · simp only [removalTime] at htr ⊢; omega
      · have h1 := (mem_cancelEvents s e hmem).2.2
        simp only [removalTime] at htr ⊢; omega
      · have h1 := (mem_raceEvents s h0 e hmem).2.2
        omega
      · omega
    rw [hall]
    unfold events
    simp [List.foldl_append, applyEvent]

/-- Witness for C9 at the concrete success scenario: removal happens at
61000, one grace period after settlement at 1000; the entry is present at
59999 and absent at 61000. -/
theorem registry_grace_period_witness :
    terminalTime successScenario + COMPLETION_TIMEOUT_MS ≤ removalTime successScenario ∧
    (stateAt DEFAULT_MODEL successScenario 59999).isSome = true ∧
    stateAt DEFAULT_MODEL successScenario 61000 = none := by
  have h := registry_grace_period DEFAULT_MODEL successScenario (by decide)
  exact ⟨h.1, h.2.2.1 59999 (by decide) (by decide), h.2.2.2 61000 (by decide)⟩

/-- C1: the status sequence Pending, Processing, Complete does occur, but a
mutation after the terminal state also occurs: in the success scenario the
task is Complete at t=1000, yet the dangling timeout timer - armed by
createTimeoutPromise and never cleared nor guarded by a terminal-state
check - fires at t=60000 while the entry is still registered and overwrites
the Complete task to Error with message "Completion timed out".  This
mutation of an already-terminal task contradicts the claim, which the spec
states as intent; the code lacks the guard. -/
theorem timer_overwrites_terminal_task :
    (stateAt DEFAULT_MODEL successScenario 1000).map CompletionTask.status =
      some CompletionStatusEnum.Complete ∧
    (stateAt DEFAULT_MODEL successScenario 60000).map CompletionTask.status =
      some CompletionStatusEnum.Error ∧
    (stateAt DEFAULT_MODEL successScenario 60000).map CompletionTask.error =
      some (some "Completion timed out") := by
  refine ⟨by decide, by decide, by decide⟩

/-- C7: the claimed invariant - result present only when Complete, error
message present only when Error - is violated by the dangling timer: at
t=60000 the success scenario's task has status Error while its stored
result is still present (and an error message besides), because the timer
callback overwrites the status without clearing the result. -/
theorem result_present_while_status_error :
    (stateAt DEFAULT_MODEL successScenario 60000).map CompletionTask.status =
      some CompletionStatusEnum.Error ∧
    ((stateAt DEFAULT_MODEL successScenario 60000).map fun tk => tk.result.isSome) =
      some true := by
  refine ⟨by decide, by decide⟩

/-- C8 counterexample: a request whose prompt is present but is the empty
string passes the validator - the code only checks typeof prompt, with no
non-emptiness requirement - so the claim that validation fails is false. -/
theorem empty_prompt_passes_validator :
    isValidCompletionArgs (JSValue.obj [("prompt", JSValue.str "")]) = true := by
  decide

/-- C8 amended: a prompt that is any string, including the empty string, is
a valid request; for prompt equal to the empty string the complete tool does
not signal an invalid-parameters error but proceeds to run the task (here
through to a normal completion). -/
theorem empty_prompt_accepted_runs_task :
    isValidCompletionArgs (JSValue.obj [("prompt", JSValue.str "")]) = true ∧
    handleCompleteTool DEFAULT_MODEL (JSValue.obj [("prompt", JSValue.str "")])
        successScenario ≠
      ToolOutcome.mcpError "InvalidParams" "Invalid completion arguments" ∧
    handleCompleteTool DEFAULT_MODEL (JSValue.obj [("prompt", JSValue.str "")])
        successScenario =
      ToolOutcome.content "hello" := by
  refine ⟨by decide, by decide, by decide⟩

end OpenAIComplete
